import Mathlib

/-!
Verification development for the indian-bazaar marketplace server.

The JavaScript route handlers and Mongoose schema hooks are shallowly embedded
as pure Lean functions over explicit state:

* JS numbers holding money are modelled as exact rationals; the Mongoose
  two-decimal setters (Math.round(v * 100) / 100) are modelled by round2.
* JS numbers holding quantities are modelled as integers.
* Database documents become structures, collections become lists, and every
  request handler becomes a function from a state and a request to an outcome
  paired with the successor state; handlers that answer an error without
  writing return the input state unchanged, mirroring the early returns.
* Geographic coordinates and the Haversine distance are modelled over the
  real numbers.
-/

namespace IndianBazaar

/-- Math.round for a JS number, on exact rationals: JS rounds half towards
positive infinity, which is floor(x + 1/2). -/
def jsRound (x : ℚ) : ℤ := ⌊x + 1/2⌋

/-- Two-decimal rounding Math.round(v * 100) / 100 used by the Mongoose
setters on every money field. -/
def round2 (x : ℚ) : ℚ := (jsRound (x * 100) : ℚ) / 100

/-- The rational x has at most two decimal places. Every money value stored
through a Mongoose setter satisfies this. -/
def TwoDec (x : ℚ) : Prop := (x * 100).den = 1

instance : DecidablePred TwoDec :=
  fun x => inferInstanceAs (Decidable ((x * 100).den = 1))

theorem twoDec_iff (x : ℚ) : TwoDec x ↔ ∃ n : ℤ, x * 100 = (n : ℚ) := by
  constructor
  · intro h
    exact ⟨(x * 100).num, ((Rat.den_eq_one_iff _).mp h).symm⟩
  · rintro ⟨n, hn⟩
    unfold TwoDec
    rw [hn]
    exact Rat.den_intCast n

theorem round2_eq_of_twoDec {x : ℚ} (h : TwoDec x) : round2 x = x := by
  obtain ⟨n, hn⟩ := (twoDec_iff x).mp h
  unfold round2 jsRound
  rw [hn]
  have hfl : ⌊(n : ℚ) + 1/2⌋ = n := by
    rw [add_comm, Int.floor_add_int]
    norm_num
  rw [hfl]
  have : (n : ℚ) = x * 100 := hn.symm
  rw [this]
  ring

theorem TwoDec.add {x y : ℚ} (hx : TwoDec x) (hy : TwoDec y) : TwoDec (x + y) := by
  obtain ⟨m, hm⟩ := (twoDec_iff x).mp hx
  obtain ⟨n, hn⟩ := (twoDec_iff y).mp hy
  refine (twoDec_iff _).mpr ⟨m + n, ?_⟩
  push_cast
  rw [add_mul, hm, hn]

theorem TwoDec.mul_intCast {x : ℚ} (hx : TwoDec x) (q : ℤ) : TwoDec (x * (q : ℚ)) := by
  obtain ⟨m, hm⟩ := (twoDec_iff x).mp hx
  refine (twoDec_iff _).mpr ⟨m * q, ?_⟩
  push_cast
  rw [mul_right_comm, hm]

theorem twoDec_intCast (n : ℤ) : TwoDec (n : ℚ) := by
  refine (twoDec_iff _).mpr ⟨n * 100, ?_⟩
  push_cast
  ring

theorem twoDec_sum {l : List ℚ} (h : ∀ x ∈ l, TwoDec x) : TwoDec l.sum := by
  induction l with
  | nil => simpa using twoDec_intCast 0
  | cons a l ih =>
    rw [List.sum_cons]
    exact (h a (List.mem_cons_self a l)).add (ih fun x hx => h x (List.mem_cons_of_mem a hx))

/-! ## Material catalog (server/models/Material.js) -/

/-- A Material document. The price field passes through the schema setter
that rounds to two decimals, so stored prices satisfy TwoDec. -/
structure Material where
  id : Nat
  name : String
  category : String
  price : ℚ
  quantity : ℤ
  unit : String
  supplierId : Nat
  supplierName : String
  deriving DecidableEq, Inhabited

/-- Material.findById over the materials collection. -/
def findMaterial (mats : List Material) (materialId : Nat) : Option Material :=
  mats.find? (fun m => m.id == materialId)

/-- Material.findByIdAndUpdate(id, { inc: { quantity: -q } }). -/
def decMaterialQty (mats : List Material) (materialId : Nat) (q : ℤ) : List Material :=
  mats.map (fun m => if m.id == materialId then { m with quantity := m.quantity - q } else m)

/-- Material.findByIdAndUpdate(id, { inc: { quantity: q } }). -/
def incMaterialQty (mats : List Material) (materialId : Nat) (q : ℤ) : List Material :=
  mats.map (fun m => if m.id == materialId then { m with quantity := m.quantity + q } else m)

/-- Quantity of the material with the given id (0 when absent). -/
def materialQty (mats : List Material) (materialId : Nat) : ℤ :=
  ((findMaterial mats materialId).map (fun m => m.quantity)).getD 0

/-! ## Cart (server/models/Cart.js and server/controllers/cartController.js) -/

/-- One cart line item; itemId models the subdocument _id. -/
structure CartItem where
  itemId : Nat
  materialId : Nat
  supplierId : Nat
  quantity : ℤ
  price : ℚ
  totalPrice : ℚ
  deriving DecidableEq, Inhabited

structure Cart where
  userId : Nat
  items : List CartItem
  totalItems : ℤ
  totalAmount : ℚ
  deriving DecidableEq, Inhabited

/-- Outcome of a cart controller operation. errExceedsStock carries the
availableQuantity that the 400 response attaches; both stock checks of
addToCart (fresh line and merged line) answer with this variant. -/
inductive CartOutcome where
  | ok
  | errMaterialNotFound
  | errItemNotFound
  | errInvalidQuantity
  | errExceedsStock (available : ℤ)
  deriving DecidableEq, Inhabited

/-- HTTP status code of each cart outcome, as sent by the controller. -/
def cartHttpStatus : CartOutcome → Nat
  | .ok => 200
  | .errMaterialNotFound => 404
  | .errItemNotFound => 404
  | .errInvalidQuantity => 400
  | .errExceedsStock _ => 400

/-- items.findIndex followed by an in-place update of that index: replace the
first element satisfying p by its image under f. -/
def updateFirst {α : Type} (p : α → Bool) (f : α → α) : List α → List α
  | [] => []
  | x :: xs => if p x then f x :: xs else x :: updateFirst p f xs

/-- items.findIndex followed by items.splice(index, 1): drop the first
element satisfying p. -/
def removeFirst {α : Type} (p : α → Bool) : List α → List α
  | [] => []
  | x :: xs => if p x then xs else x :: removeFirst p (xs)

/-- The inline totals recomputation done by every cart controller mutation
(cart.totalItems / cart.totalAmount via reduce over the full item list)
followed by cart.save(), whose pre('save') hook recomputes both totals once
more and applies the two-decimal rounding of the totalAmount setter. -/
def cartSave (c : Cart) : Cart :=
  { c with
    totalItems := (c.items.map (fun it => it.quantity)).sum
    totalAmount := round2 ((c.items.map (fun it => it.totalPrice)).sum) }

/-- Request body of POST /cart/add; quantity already carries the default 1
applied at destructuring, and supplierId is optional. -/
structure AddToCartRequest where
  materialId : Nat
  supplierId : Option Nat
  quantity : ℤ
  deriving DecidableEq, Inhabited

/-- addToCart from cartController.js. newItemId models the _id MongoDB
assigns to a freshly pushed subdocument. -/
def addToCart (mats : List Material) (cart : Cart) (req : AddToCartRequest)
    (newItemId : Nat) : CartOutcome × Cart :=
  match findMaterial mats req.materialId with
  | none => (.errMaterialNotFound, cart)
  | some material =>
    -- when the request has no supplierId it is taken from the material
    if req.quantity > material.quantity then
      (.errExceedsStock material.quantity, cart)
    else
      match cart.items.find? (fun it =>
          it.materialId == req.materialId &&
          it.supplierId == req.supplierId.getD material.supplierId) with
      | some existingItem =>
        if existingItem.quantity + req.quantity > material.quantity then
          (.errExceedsStock material.quantity, cart)
        else
          (.ok, cartSave { cart with items :=
            (updateFirst
              (fun it => it.materialId == req.materialId &&
                it.supplierId == req.supplierId.getD material.supplierId)
              (fun it => { it with
                quantity := existingItem.quantity + req.quantity
                totalPrice := material.price * ((existingItem.quantity + req.quantity : ℤ) : ℚ) })
              cart.items) })
      | none =>
        (.ok, cartSave { cart with items := cart.items ++
          [{ itemId := newItemId
             materialId := req.materialId
             supplierId := req.supplierId.getD material.supplierId
             quantity := req.quantity
             price := material.price
             totalPrice := material.price * (req.quantity : ℚ) }] })

/-- updateCartItem from cartController.js. The quantity is Option-valued
because the body may omit it; the guard if (!quantity || quantity < 0)
treats an absent quantity and the number 0 alike as falsy. -/
def updateCartItem (mats : List Material) (cart : Cart) (itemId : Nat)
    (quantity : Option ℤ) : CartOutcome × Cart :=
  match quantity with
  | none => (.errInvalidQuantity, cart)
  | some q =>
    if q = 0 ∨ q < 0 then (.errInvalidQuantity, cart)
    else
      match cart.items.find? (fun it => it.itemId == itemId) with
      | none => (.errItemNotFound, cart)
      | some item =>
        match findMaterial mats item.materialId with
        | none => (.errMaterialNotFound, cart)
        | some material =>
          if q > material.quantity then
            (.errExceedsStock material.quantity, cart)
          else if q = 0 then
            -- the removal branch of the source; unreachable because the
            -- falsiness guard above already rejected 0
            (.ok, cartSave { cart with items :=
              (removeFirst (fun it => it.itemId == itemId) cart.items) })
          else
            (.ok, cartSave { cart with items :=
              (updateFirst (fun it => it.itemId == itemId)
                (fun it => { it with
                  quantity := q
                  totalPrice := material.price * (q : ℚ) })
                cart.items) })

/-- removeFromCart from cartController.js. -/
def removeFromCart (cart : Cart) (itemId : Nat) : CartOutcome × Cart :=
  match cart.items.find? (fun it => it.itemId == itemId) with
  | none => (.errItemNotFound, cart)
  | some _ =>
    (.ok, cartSave { cart with items :=
      (removeFirst (fun it => it.itemId == itemId) cart.items) })

/-- clearCart from cartController.js: empty the items and zero the totals,
then save (the pre-save hook recomputes the totals over the empty list). -/
def clearCart (cart : Cart) : CartOutcome × Cart :=
  (.ok, cartSave { cart with items := [], totalItems := 0, totalAmount := 0 })

/-- The totals invariant of the spec: totalItems is the sum of the
quantities and totalAmount the sum of the line totals, over the full list. -/
def cartTotalsInvariant (c : Cart) : Prop :=
  c.totalItems = (c.items.map (fun it => it.quantity)).sum ∧
  c.totalAmount = (c.items.map (fun it => it.totalPrice)).sum

theorem findMaterial_mem {mats : List Material} {materialId : Nat} {m : Material}
    (h : findMaterial mats materialId = some m) : m ∈ mats :=
  List.mem_of_find?_eq_some h

theorem mem_updateFirst {α : Type} {p : α → Bool} {f : α → α} {l : List α} {x : α}
    (hx : x ∈ updateFirst p f l) : x ∈ l ∨ ∃ y, y ∈ l ∧ x = f y := by
  induction l with
  | nil => simp [updateFirst] at hx
  | cons a l ih =>
    cases hp : p a with
    | true =>
      simp only [updateFirst, hp, if_true, List.mem_cons] at hx
      rcases hx with hx | hx
      · exact Or.inr ⟨a, List.mem_cons_self a l, hx⟩
      · exact Or.inl (List.mem_cons_of_mem a hx)
    | false =>
      simp only [updateFirst, hp, Bool.false_eq_true, if_false, List.mem_cons] at hx
      rcases hx with hx | hx
      · exact Or.inl (hx ▸ List.mem_cons_self a l)
      · rcases ih hx with h1 | ⟨y, hy, he⟩
        · exact Or.inl (List.mem_cons_of_mem a h1)
        · exact Or.inr ⟨y, List.mem_cons_of_mem a hy, he⟩

theorem mem_removeFirst {α : Type} {p : α → Bool} {l : List α} {x : α}
    (hx : x ∈ removeFirst p l) : x ∈ l := by
  induction l with
  | nil => simp [removeFirst] at hx
  | cons a l ih =>
    cases hp : p a with
    | true =>
      simp only [removeFirst, hp, if_true] at hx
      exact List.mem_cons_of_mem a hx
    | false =>
      simp only [removeFirst, hp, Bool.false_eq_true, if_false, List.mem_cons] at hx
      rcases hx with hx | hx
      · exact hx ▸ List.mem_cons_self a l
      · exact List.mem_cons_of_mem a (ih hx)

theorem cartSave_totals {c : Cart} (h : ∀ it ∈ c.items, TwoDec it.totalPrice) :
    cartTotalsInvariant (cartSave c) := by
  refine ⟨rfl, ?_⟩
  show round2 ((c.items.map (fun it => it.totalPrice)).sum) =
    (c.items.map (fun it => it.totalPrice)).sum
  refine round2_eq_of_twoDec (twoDec_sum ?_)
  intro x hx
  obtain ⟨it, hit, rfl⟩ := List.mem_map.mp hx
  exact h it hit

theorem addToCart_invariant (mats : List Material) (cart : Cart) (req : AddToCartRequest)
    (newItemId : Nat)
    (hm : ∀ m ∈ mats, TwoDec m.price) (hc : ∀ it ∈ cart.items, TwoDec it.totalPrice)
    (h : (addToCart mats cart req newItemId).1 = CartOutcome.ok) :
    cartTotalsInvariant (addToCart mats cart req newItemId).2 := by
  cases hfm : findMaterial mats req.materialId with
  | none => simp [addToCart, hfm] at h
  | some material =>
    have hmat : TwoDec material.price := hm material (findMaterial_mem hfm)
    by_cases hq : req.quantity > material.quantity
    · simp [addToCart, hfm, hq] at h
    · cases hfind : cart.items.find? (fun it =>
          it.materialId == req.materialId &&
          it.supplierId == req.supplierId.getD material.supplierId) with
      | none =>
        simp only [addToCart, hfm, hq, if_false, hfind]
        apply cartSave_totals
        intro it hit
        rcases List.mem_append.mp hit with hold | hnew
        · exact hc it hold
        · rw [List.mem_singleton.mp hnew]
          exact hmat.mul_intCast req.quantity
      | some existingItem =>
        by_cases hq2 : existingItem.quantity + req.quantity > material.quantity
        · simp [addToCart, hfm, hq, hfind, hq2] at h
        · simp only [addToCart, hfm, hq, if_false, hfind, hq2]
          apply cartSave_totals
          intro it hit
          rcases mem_updateFirst hit with hold | ⟨y, _, rfl⟩
          · exact hc it hold
          · exact hmat.mul_intCast (existingItem.quantity + req.quantity)

theorem updateCartItem_invariant (mats : List Material) (cart : Cart) (itemId : Nat)
    (quantity : Option ℤ)
    (hm : ∀ m ∈ mats, TwoDec m.price) (hc : ∀ it ∈ cart.items, TwoDec it.totalPrice)
    (h : (updateCartItem mats cart itemId quantity).1 = CartOutcome.ok) :
    cartTotalsInvariant (updateCartItem mats cart itemId quantity).2 := by
  cases quantity with
  | none => simp [updateCartItem] at h
  | some q =>
    by_cases h0 : q = 0 ∨ q < 0
    · simp [updateCartItem, h0] at h
    · cases hfind : cart.items.find? (fun it => it.itemId == itemId) with
      | none => simp [updateCartItem, h0, hfind] at h
      | some item =>
        cases hfm : findMaterial mats item.materialId with
        | none => simp [updateCartItem, h0, hfind, hfm] at h
        | some material =>
          have hmat : TwoDec material.price := hm material (findMaterial_mem hfm)
          by_cases hq : q > material.quantity
          · simp [updateCartItem, h0, hfind, hfm, hq] at h
          · have hq0 : ¬ q = 0 := fun hz => h0 (Or.inl hz)
            simp only [updateCartItem]
            rw [if_neg h0]
            simp only [hfind, hfm]
            rw [if_neg hq, if_neg hq0]
            apply cartSave_totals
            intro it hit
            rcases mem_updateFirst hit with hold | ⟨y, _, rfl⟩
            · exact hc it hold
            · exact hmat.mul_intCast q

theorem removeFromCart_invariant (cart : Cart) (itemId : Nat)
    (hc : ∀ it ∈ cart.items, TwoDec it.totalPrice)
    (h : (removeFromCart cart itemId).1 = CartOutcome.ok) :
    cartTotalsInvariant (removeFromCart cart itemId).2 := by
  cases hfind : cart.items.find? (fun it => it.itemId == itemId) with
  | none => simp [removeFromCart, hfind] at h
  | some item =>
    simp only [removeFromCart, hfind]
    apply cartSave_totals
    intro it hit
    exact hc it (mem_removeFirst hit)

/-- C5: after every cart mutation that succeeds (add, update, remove, clear),
the saved cart satisfies totalItems = sum of the item quantities and
totalAmount = sum of the item totalPrice values, both recomputed from the
full item list. The hypotheses record what the Mongoose setters guarantee:
every stored Material price and every stored line total has at most two
decimal places. -/
theorem cart_mutations_recompute_totals (mats : List Material) (cart : Cart)
    (hm : ∀ m ∈ mats, TwoDec m.price) (hc : ∀ it ∈ cart.items, TwoDec it.totalPrice) :
    (∀ req newItemId, (addToCart mats cart req newItemId).1 = CartOutcome.ok →
      cartTotalsInvariant (addToCart mats cart req newItemId).2) ∧
    (∀ itemId q, (updateCartItem mats cart itemId q).1 = CartOutcome.ok →
      cartTotalsInvariant (updateCartItem mats cart itemId q).2) ∧
    (∀ itemId, (removeFromCart cart itemId).1 = CartOutcome.ok →
      cartTotalsInvariant (removeFromCart cart itemId).2) ∧
    cartTotalsInvariant (clearCart cart).2 :=
  ⟨fun req newItemId h => addToCart_invariant mats cart req newItemId hm hc h,
   fun itemId q h => updateCartItem_invariant mats cart itemId q hm hc h,
   fun itemId h => removeFromCart_invariant cart itemId hc h,
   cartSave_totals (by intro it hit; simp at hit)⟩

/-- A one-material catalog and a one-line cart used to instantiate the cart
theorems on concrete data. -/
def wMats : List Material :=
  [{ id := 1, name := "Fresh Tomatoes", category := "Vegetables", price := 40,
     quantity := 100, unit := "kg", supplierId := 7, supplierName := "Test Supplier" }]

def wCart : Cart :=
  { userId := 3,
    items := [{ itemId := 5, materialId := 1, supplierId := 7, quantity := 2,
                price := 40, totalPrice := 80 }],
    totalItems := 2, totalAmount := 80 }

theorem wMats_twoDec : ∀ m ∈ wMats, TwoDec m.price := by
  intro m hm
  simp only [wMats, List.mem_singleton] at hm
  subst hm
  exact (twoDec_iff _).mpr ⟨4000, by norm_num⟩

theorem wCart_twoDec : ∀ it ∈ wCart.items, TwoDec it.totalPrice := by
  intro it hit
  simp only [wCart, List.mem_singleton] at hit
  subst hit
  exact (twoDec_iff _).mpr ⟨8000, by norm_num⟩

/-- Witness for C5 at a concrete catalog and cart. -/
theorem cart_mutations_recompute_totals_witness :
    (∀ m ∈ wMats, TwoDec m.price) ∧ (∀ it ∈ wCart.items, TwoDec it.totalPrice) ∧
    cartTotalsInvariant (clearCart wCart).2 :=
  ⟨wMats_twoDec, wCart_twoDec,
   (cart_mutations_recompute_totals wMats wCart wMats_twoDec wCart_twoDec).2.2.2⟩

/-- C6 (code bug): setting a cart line's quantity to 0 does not remove the
line; the falsiness guard if (!quantity || quantity < 0) rejects 0 with a
400 before the explicit quantity === 0 removal branch can run, leaving the
cart unchanged. -/
theorem updateCartItem_zero_rejected :
    updateCartItem wMats wCart 5 (some 0) = (CartOutcome.errInvalidQuantity, wCart) ∧
    cartHttpStatus CartOutcome.errInvalidQuantity = 400 :=
  ⟨rfl, rfl⟩

/-! ## Orders (server/models/Order.js and server/controllers/orderController.js) -/

inductive OrderStatus where
  | pending
  | confirmed
  | processing
  | packed
  | shipped
  | outForDelivery
  | delivered
  | cancelled
  | returned
  deriving DecidableEq, Inhabited

/-- A denormalized order line, snapshotting the material at creation time.
The price and totalPrice fields pass the two-decimal schema setters. -/
structure OrderItem where
  materialId : Nat
  materialName : String
  category : String
  quantity : ℤ
  unit : String
  price : ℚ
  totalPrice : ℚ
  supplierId : Nat
  supplierName : String
  deriving DecidableEq, Inhabited

/-- One entry of the order's tracking history (trackingSchema). -/
structure TrackingEntry where
  status : OrderStatus
  updatedAt : Nat
  updatedBy : Nat
  location : String
  notes : String
  deriving DecidableEq, Inhabited

/-- An Order document; id models the MongoDB _id, and dates are epoch
milliseconds. Response-only fields (payment, delivery details, coupons,
ratings) carry no claim and are omitted. -/
structure Order where
  id : Nat
  orderNumber : String
  vendorId : Nat
  vendorName : String
  items : List OrderItem
  totalItems : ℤ
  subtotal : ℚ
  deliveryFee : ℚ
  discount : ℚ
  taxes : ℚ
  totalAmount : ℚ
  status : OrderStatus
  tracking : List TrackingEntry
  notes : String
  estimatedDelivery : Option Nat
  trackingNumber : Option String
  actualDelivery : Option Nat
  cancelledAt : Option Nat
  cancelledBy : Option Nat
  deriving DecidableEq, Inhabited

/-- The server-side view of the mutable persisted state the order routes
touch: the Material collection and the Order collection. -/
structure ServerState where
  materials : List Material
  orders : List Order
  deriving DecidableEq, Inhabited

inductive Role where
  | vendor
  | supplier
  deriving DecidableEq, Inhabited

/-- The authenticated requester (req.user). -/
structure UserCtx where
  id : Nat
  role : Role
  deriving DecidableEq, Inhabited

def findOrder (orders : List Order) (orderId : Nat) : Option Order :=
  orders.find? (fun o => o.id == orderId)

/-- Persisting an updated document back into the collection. -/
def replaceOrder (orders : List Order) (orderId : Nat) (updated : Order) : List Order :=
  orders.map (fun o => if o.id == orderId then updated else o)

/-- The totals part of orderSchema.pre('save'): recompute totalItems and
subtotal from the items, rounding subtotal to two decimals. The
orderNumber-generation branch of the hook is guarded by
this.isNew && !this.orderNumber; every save performed by the modelled
routes either carries a non-empty orderNumber or saves an existing
document, so that branch never runs (its generator is modelled separately
as preSaveOrderNumber). -/
def orderRecalcTotals (o : Order) : Order :=
  { o with
    totalItems := (o.items.map (fun it => it.quantity)).sum
    subtotal := round2 ((o.items.map (fun it => it.totalPrice)).sum) }

/-- JS s.slice(-n): the last n characters of s. -/
def lastN (n : Nat) (s : String) : String := String.mk (s.data.drop (s.length - n))

/-- JS s.padStart(w, zero). -/
def padZeros (w : Nat) (s : String) : String :=
  String.mk (List.replicate (w - s.length) '0') ++ s

def pad2 (n : Nat) : String := padZeros 2 (toString n)

def pad4 (n : Nat) : String := padZeros 4 (toString n)

/-- The wall clock as the controller reads it: calendar parts of new Date()
(month already carries the getMonth() + 1 correction) plus Date.now() in
epoch milliseconds. -/
structure DateNow where
  year : Nat
  month : Nat
  day : Nat
  epochMs : Nat
  deriving DecidableEq, Inhabited

/-- The order number built inline by createOrder: IBP, the last two digits
of the year, zero-padded month and day, and the last six digits of
Date.now(). -/
def controllerOrderNumber (now : DateNow) : String :=
  "IBP" ++ lastN 2 (toString now.year) ++ pad2 now.month ++ pad2 now.day ++
    lastN 6 (toString now.epochMs)

/-- The generator in orderSchema.pre('save'): scan today's orders for the
highest order number, parse its last four digits, increment, and zero-pad
to four digits. Runs only when a new document has no orderNumber. -/
def preSaveOrderNumber (orders : List Order) (now : DateNow) : String :=
  dayPart now ++ pad4 (nextSequence orders now)
where
  dayPart (now : DateNow) : String :=
    "IBP" ++ lastN 2 (toString now.year) ++ pad2 now.month ++ pad2 now.day
  nextSequence (orders : List Order) (now : DateNow) : Nat :=
    match (orders.filter (fun o => (dayPart now).isPrefixOf o.orderNumber)).foldl
      (fun best o => match best with
        | none => some o.orderNumber
        | some b => if b < o.orderNumber then some o.orderNumber else some b) none with
    | none => 1
    | some last => (lastN 4 last).toNat?.getD 0 + 1

/-- One line of the request body: { materialId, quantity }. -/
structure OrderLine where
  materialId : Nat
  quantity : ℤ
  deriving DecidableEq, Inhabited

/-- Request body of POST /orders (the deliveryAddress and payment method
munging carries no claim and is omitted). -/
structure CreateOrderRequest where
  materials : List OrderLine
  notes : String
  deriving DecidableEq, Inhabited

inductive CreateOrderError where
  | notFound (materialId : Nat)
  | insufficientStock (materialName : String) (available : ℤ)
  deriving DecidableEq, Inhabited

/-- The order item constructed inside the validation loop; price and
totalPrice pass the orderItemSchema two-decimal setters. -/
def mkOrderItem (m : Material) (line : OrderLine) : OrderItem :=
  { materialId := m.id
    materialName := m.name
    category := m.category
    quantity := line.quantity
    unit := m.unit
    price := round2 m.price
    totalPrice := round2 (m.price * (line.quantity : ℚ))
    supplierId := m.supplierId
    supplierName := m.supplierName }

/-- The validation loop of createOrder: walk the request lines in order,
answer the first NotFound or InsufficientStock, otherwise accumulate the
order items and the running totalAmount. -/
def validateItems (mats : List Material) :
    List OrderLine → Except CreateOrderError (List OrderItem × ℚ)
  | [] => .ok ([], 0)
  | line :: rest =>
    match findMaterial mats line.materialId with
    | none => .error (.notFound line.materialId)
    | some material =>
      if line.quantity > material.quantity then
        .error (.insufficientStock material.name material.quantity)
      else
        match validateItems mats rest with
        | .error e => .error e
        | .ok (items, total) =>
          .ok (mkOrderItem material line :: items,
               material.price * (line.quantity : ℚ) + total)

inductive CreateOrderOutcome where
  | created (order : Order)
  | errEmptyOrder
  | errMaterialNotFound (materialId : Nat)
  | errInsufficientStock (materialName : String) (available : ℤ)
  deriving DecidableEq, Inhabited

/-- HTTP status code of each createOrder outcome. -/
def createOrderHttpStatus : CreateOrderOutcome → Nat
  | .created _ => 201
  | .errEmptyOrder => 400
  | .errMaterialNotFound _ => 404
  | .errInsufficientStock _ _ => 400

/-- The Order document Order.create builds in createOrder, before the save
hook recomputes its totals: denormalized items, the inline order number, a
fixed delivery fee of 50 merged into totalAmount, status pending, and the
schema defaults (discount 0, taxes 0, empty tracking). The subtotal and
totalAmount values pass the two-decimal schema setters. -/
def newOrderDoc (vendorId : Nat) (vendorName : String) (req : CreateOrderRequest)
    (now : DateNow) (newOrderId : Nat) (orderItems : List OrderItem)
    (totalAmount : ℚ) : Order :=
  { id := newOrderId
    orderNumber := controllerOrderNumber now
    vendorId := vendorId
    vendorName := vendorName
    items := orderItems
    totalItems := (req.materials.map (fun it => it.quantity)).sum
    subtotal := round2 totalAmount
    deliveryFee := round2 50
    discount := 0
    taxes := 0
    totalAmount := round2 (totalAmount + 50)
    status := .pending
    tracking := []
    notes := req.notes
    estimatedDelivery := none
    trackingNumber := none
    actualDelivery := none
    cancelledAt := none
    cancelledBy := none }

/-- createOrder from orderController.js: validate every line, build the
order (Order.create, whose save applies the pre-save totals recompute),
then decrement each line's material quantity. Every error path returns
before any write, so it leaves the state unchanged. newOrderId models the
_id MongoDB assigns. -/
def createOrder (s : ServerState) (vendorId : Nat) (vendorName : String)
    (req : CreateOrderRequest) (now : DateNow) (newOrderId : Nat) :
    CreateOrderOutcome × ServerState :=
  if req.materials.isEmpty then (.errEmptyOrder, s)
  else
    match validateItems s.materials req.materials with
    | .error (.notFound materialId) => (.errMaterialNotFound materialId, s)
    | .error (.insufficientStock n a) => (.errInsufficientStock n a, s)
    | .ok (orderItems, totalAmount) =>
      (.created (orderRecalcTotals
          (newOrderDoc vendorId vendorName req now newOrderId orderItems totalAmount)),
       { materials := req.materials.foldl
           (fun ms line => decMaterialQty ms line.materialId line.quantity) s.materials,
         orders := s.orders ++ [orderRecalcTotals
           (newOrderDoc vendorId vendorName req now newOrderId orderItems totalAmount)] })

/-- The order carried by a created outcome. -/
def orderOfOutcome : CreateOrderOutcome → Order
  | .created o => o
  | _ => default

/-- The request line's material exists in the catalog. -/
def lineMaterialExists (mats : List Material) (line : OrderLine) : Bool :=
  (findMaterial mats line.materialId).isSome

/-- The request line asks for more than the catalog has. -/
def lineInsufficient (mats : List Material) (line : OrderLine) : Bool :=
  match findMaterial mats line.materialId with
  | some m => decide (m.quantity < line.quantity)
  | none => false

theorem findMaterial_id {mats : List Material} {materialId : Nat} {m : Material}
    (h : findMaterial mats materialId = some m) : m.id = materialId := by
  unfold findMaterial at h
  have hp := List.find?_some h
  simpa using hp

theorem validateItems_insufficient (mats : List Material) :
    ∀ lines : List OrderLine,
    (∀ line ∈ lines, lineMaterialExists mats line = true) →
    (∃ line ∈ lines, lineInsufficient mats line = true) →
    ∃ line ∈ lines, ∃ m : Material,
      findMaterial mats line.materialId = some m ∧ m.quantity < line.quantity ∧
      validateItems mats lines = .error (.insufficientStock m.name m.quantity) := by
  intro lines
  induction lines with
  | nil =>
    rintro _ ⟨line, hmem, _⟩
    exact absurd hmem (List.not_mem_nil line)
  | cons line rest ih =>
    intro hex hins
    cases hfm : findMaterial mats line.materialId with
    | none =>
      have hh := hex line (List.mem_cons_self _ _)
      rw [lineMaterialExists, hfm] at hh
      simp at hh
    | some m =>
      by_cases hq : line.quantity > m.quantity
      · refine ⟨line, List.mem_cons_self _ _, m, hfm, hq, ?_⟩
        simp only [validateItems, hfm]
        rw [if_pos hq]
      · have hrest : ∃ l ∈ rest, lineInsufficient mats l = true := by
          rcases hins with ⟨l, hl, hli⟩
          rcases List.mem_cons.mp hl with rfl | hl'
          · rw [lineInsufficient, hfm] at hli
            exact absurd (of_decide_eq_true hli) hq
          · exact ⟨l, hl', hli⟩
        obtain ⟨l, hl, m', hfm', hq', hval⟩ :=
          ih (fun x hx => hex x (List.mem_cons_of_mem _ hx)) hrest
        refine ⟨l, List.mem_cons_of_mem _ hl, m', hfm', hq', ?_⟩
        simp only [validateItems, hfm]
        rw [if_neg hq, hval]

/-- C1: an order-creation request whose lines all name existing materials
but where some line asks for more than the material's current quantity is
rejected with the InsufficientStock error of the first such line — a 400
carrying the available quantity — and the state is returned unchanged: no
order is appended and no material quantity is decremented, including for
lines validated before the failing one. -/
theorem createOrder_insufficientStock_rejected
    (s : ServerState) (vendorId : Nat) (vendorName : String) (req : CreateOrderRequest)
    (now : DateNow) (newOrderId : Nat)
    (hex : ∀ line ∈ req.materials, lineMaterialExists s.materials line = true)
    (hins : ∃ line ∈ req.materials, lineInsufficient s.materials line = true) :
    ∃ line ∈ req.materials, ∃ m : Material,
      findMaterial s.materials line.materialId = some m ∧
      m.quantity < line.quantity ∧
      createOrder s vendorId vendorName req now newOrderId =
        (.errInsufficientStock m.name m.quantity, s) ∧
      createOrderHttpStatus (.errInsufficientStock m.name m.quantity) = 400 := by
  obtain ⟨line, hmem, m, hfm, hq, hval⟩ :=
    validateItems_insufficient s.materials req.materials hex hins
  refine ⟨line, hmem, m, hfm, hq, ?_, rfl⟩
  have hne : req.materials.isEmpty = false := by
    cases hreq : req.materials with
    | nil => rw [hreq] at hmem; cases hmem
    | cons a l => rfl
  simp only [createOrder, hne, Bool.false_eq_true, if_false]
  rw [hval]

/-- The concrete order-route state: the one-material catalog and no
existing orders. -/
def oState : ServerState := { materials := wMats, orders := [] }

/-- A request whose second line overshoots the stock of material 1. -/
def oReqTooMany : CreateOrderRequest :=
  { materials := [{ materialId := 1, quantity := 20 }, { materialId := 1, quantity := 200 }],
    notes := "" }

/-- A request for 20 of material 1, within its stock of 100. -/
def oReqOk : CreateOrderRequest :=
  { materials := [{ materialId := 1, quantity := 20 }], notes := "" }

def oNow : DateNow := { year := 2025, month := 3, day := 7, epochMs := 1741300000000 }

/-- Witness for C1 at a concrete state and request. -/
theorem createOrder_insufficientStock_rejected_witness :
    (∀ line ∈ oReqTooMany.materials, lineMaterialExists oState.materials line = true) ∧
    (∃ line ∈ oReqTooMany.materials, ∃ m : Material,
      findMaterial oState.materials line.materialId = some m ∧
      m.quantity < line.quantity ∧
      createOrder oState 9 "Test Vendor" oReqTooMany oNow 1 =
        (.errInsufficientStock m.name m.quantity, oState) ∧
      createOrderHttpStatus (.errInsufficientStock m.name m.quantity) = 400) :=
  ⟨by decide,
   createOrder_insufficientStock_rejected oState 9 "Test Vendor" oReqTooMany oNow 1
     (by decide) (by decide)⟩

theorem validateItems_ok (mats : List Material) (htp : ∀ m ∈ mats, TwoDec m.price) :
    ∀ lines items total, validateItems mats lines = .ok (items, total) →
      total = (items.map (fun i => i.price * (i.quantity : ℚ))).sum ∧
      (∀ i ∈ items, i.totalPrice = i.price * (i.quantity : ℚ) ∧ TwoDec i.totalPrice ∧
        ∃ m, findMaterial mats i.materialId = some m ∧ i.price = m.price) ∧
      items.map (fun i => (i.materialId, i.quantity)) =
        lines.map (fun l => (l.materialId, l.quantity)) := by
  intro lines
  induction lines with
  | nil =>
    intro items total h
    simp only [validateItems, Except.ok.injEq, Prod.mk.injEq] at h
    obtain ⟨h1, h2⟩ := h
    subst h1; subst h2
    simp
  | cons line rest ih =>
    intro items total h
    simp only [validateItems] at h
    cases hfm : findMaterial mats line.materialId with
    | none => simp [hfm] at h
    | some material =>
      simp only [hfm] at h
      by_cases hq : line.quantity > material.quantity
      · rw [if_pos hq] at h; simp at h
      · rw [if_neg hq] at h
        cases hrest : validateItems mats rest with
        | error e => simp [hrest] at h
        | ok p =>
          obtain ⟨restItems, restTotal⟩ := p
          simp only [hrest, Except.ok.injEq, Prod.mk.injEq] at h
          obtain ⟨hitems, htotal⟩ := h
          subst hitems; subst htotal
          obtain ⟨ih1, ih2, ih3⟩ := ih restItems restTotal hrest
          have hmp : TwoDec material.price := htp material (findMaterial_mem hfm)
          have hprice : (mkOrderItem material line).price = material.price :=
            round2_eq_of_twoDec hmp
          have htp2 : (mkOrderItem material line).totalPrice =
              (mkOrderItem material line).price * ((mkOrderItem material line).quantity : ℚ) := by
            show round2 (material.price * (line.quantity : ℚ)) =
              round2 material.price * (line.quantity : ℚ)
            rw [round2_eq_of_twoDec hmp,
              round2_eq_of_twoDec (hmp.mul_intCast line.quantity)]
          refine ⟨?_, ?_, ?_⟩
          · simp only [List.map_cons, List.sum_cons]
            rw [ih1]
            congr 1
            show material.price * (line.quantity : ℚ) =
              round2 material.price * (line.quantity : ℚ)
            rw [round2_eq_of_twoDec hmp]
          · intro i hi
            rcases List.mem_cons.mp hi with rfl | hi'
            · refine ⟨htp2, ?_, material, ?_, hprice⟩
              · rw [htp2, hprice]
                exact hmp.mul_intCast line.quantity
              · show findMaterial mats material.id = some material
                rw [findMaterial_id hfm]
                exact hfm
            · exact ih2 i hi'
          · simp only [List.map_cons, ih3, List.cons.injEq]
            refine ⟨?_, trivial⟩
            show (material.id, line.quantity) = (line.materialId, line.quantity)
            rw [findMaterial_id hfm]

/-- C7: every successfully created order has subtotal equal to the sum over
its lines of the snapshotted material price times the ordered quantity
(with each line's price being the catalog price of its material and the
lines mirroring the request), a fixed delivery fee of 50 added, and
totalAmount = subtotal + deliveryFee - discount + taxes. -/
theorem createOrder_totals
    (s : ServerState) (vendorId : Nat) (vendorName : String) (req : CreateOrderRequest)
    (now : DateNow) (newOrderId : Nat) (order : Order)
    (htp : ∀ m ∈ s.materials, TwoDec m.price)
    (h : (createOrder s vendorId vendorName req now newOrderId).1 =
      CreateOrderOutcome.created order) :
    order.deliveryFee = 50 ∧ order.discount = 0 ∧ order.taxes = 0 ∧
    order.subtotal = (order.items.map (fun i => i.price * (i.quantity : ℚ))).sum ∧
    order.totalAmount = order.subtotal + order.deliveryFee - order.discount + order.taxes ∧
    (∀ i ∈ order.items, ∃ m, findMaterial s.materials i.materialId = some m ∧
      i.price = m.price) ∧
    order.items.map (fun i => (i.materialId, i.quantity)) =
      req.materials.map (fun l => (l.materialId, l.quantity)) := by
  cases hemp : req.materials.isEmpty with
  | true => simp [createOrder, hemp] at h
  | false =>
    simp only [createOrder, hemp, Bool.false_eq_true, if_false] at h
    cases hval : validateItems s.materials req.materials with
    | error e =>
      cases e with
      | notFound materialId => simp [hval] at h
      | insufficientStock n a => simp [hval] at h
    | ok p =>
      obtain ⟨orderItems, totalAmount⟩ := p
      simp only [hval, CreateOrderOutcome.created.injEq] at h
      subst h
      obtain ⟨hv1, hv2, hv3⟩ := validateItems_ok s.materials htp req.materials
        orderItems totalAmount hval
      have h50 : TwoDec (50 : ℚ) := (twoDec_iff _).mpr ⟨5000, by norm_num⟩
      have hItemsTwoDec : ∀ x ∈ orderItems.map (fun it => it.totalPrice), TwoDec x := by
        intro x hx
        obtain ⟨i, hi, rfl⟩ := List.mem_map.mp hx
        exact (hv2 i hi).2.1
      have hSumEq : (orderItems.map (fun it => it.totalPrice)).sum =
          (orderItems.map (fun i => i.price * (i.quantity : ℚ))).sum := by
        congr 1
        exact List.map_congr_left (fun i hi => (hv2 i hi).1)
      have hTotalTwoDec : TwoDec totalAmount := by
        rw [hv1, ← hSumEq]
        exact twoDec_sum hItemsTwoDec
      simp only [orderRecalcTotals, newOrderDoc]
      refine ⟨round2_eq_of_twoDec h50, trivial, trivial, ?_, ?_, ?_, ?_⟩
      · rw [round2_eq_of_twoDec (twoDec_sum hItemsTwoDec), hSumEq]
      · rw [round2_eq_of_twoDec (hTotalTwoDec.add h50),
          round2_eq_of_twoDec (twoDec_sum hItemsTwoDec),
          round2_eq_of_twoDec h50, hSumEq, ← hv1]
        ring
      · intro i hi
        obtain ⟨_, _, m, hm1, hm2⟩ := hv2 i hi
        exact ⟨m, hm1, hm2⟩
      · exact hv3

theorem oState_twoDec : ∀ m ∈ oState.materials, TwoDec m.price :=
  fun m hm => wMats_twoDec m hm

/-- Witness for C7 at a concrete state and request. -/
theorem createOrder_totals_witness :
    (∀ m ∈ oState.materials, TwoDec m.price) ∧
    ((orderOfOutcome (createOrder oState 9 "Test Vendor" oReqOk oNow 1).1).totalAmount =
      (orderOfOutcome (createOrder oState 9 "Test Vendor" oReqOk oNow 1).1).subtotal +
      (orderOfOutcome (createOrder oState 9 "Test Vendor" oReqOk oNow 1).1).deliveryFee -
      (orderOfOutcome (createOrder oState 9 "Test Vendor" oReqOk oNow 1).1).discount +
      (orderOfOutcome (createOrder oState 9 "Test Vendor" oReqOk oNow 1).1).taxes) :=
  ⟨oState_twoDec,
   (createOrder_totals oState 9 "Test Vendor" oReqOk oNow 1
     (orderOfOutcome (createOrder oState 9 "Test Vendor" oReqOk oNow 1).1)
     oState_twoDec rfl).2.2.2.2.1⟩

/-! ## Order status transitions (updateOrderStatus and cancelOrder) -/

/-- Request body of PUT /orders/:id/status. -/
structure UpdateStatusRequest where
  status : OrderStatus
  estimatedDelivery : Option Nat
  trackingNumber : Option String
  notes : Option String
  deriving DecidableEq, Inhabited

/-- The validStatuses list the controller accepts; the schema's other
states (packed, out_for_delivery, returned) are rejected with a 400. -/
def validStatuses : List OrderStatus :=
  [.pending, .confirmed, .processing, .shipped, .delivered, .cancelled]

inductive UpdateStatusOutcome where
  | ok (order : Order)
  | errInvalidStatus
  | errNotFound
  | errForbidden
  deriving DecidableEq, Inhabited

def usOk : UpdateStatusOutcome → Bool
  | .ok _ => true
  | _ => false

/-- The order carried by a successful status update. -/
def usOrderOf : UpdateStatusOutcome → Order
  | .ok o => o
  | _ => default

/-- The updateData document findByIdAndUpdate applies in updateOrderStatus:
always the new status, each optional field only when the request supplies
it, and the actualDelivery stamp when the target status is delivered. -/
def appliedStatusUpdate (order : Order) (req : UpdateStatusRequest) (now : Nat) : Order :=
  { order with
    status := req.status
    estimatedDelivery := req.estimatedDelivery.or order.estimatedDelivery
    trackingNumber := req.trackingNumber.or order.trackingNumber
    notes := req.notes.getD order.notes
    actualDelivery := if req.status == .delivered then some now
      else order.actualDelivery }

/-- updateOrderStatus from orderController.js: validate the target status
against validStatuses, load the order, require the requester to supply at
least one of its line items, then write the new status (plus optional
fields, and actualDelivery when the target is delivered) through
findByIdAndUpdate — which triggers no pre-save hook. There is no check on
the order's current status, and materials are never touched. -/
def updateOrderStatus (s : ServerState) (u : UserCtx) (orderId : Nat)
    (req : UpdateStatusRequest) (now : Nat) : UpdateStatusOutcome × ServerState :=
  if !(validStatuses.contains req.status) then (.errInvalidStatus, s)
  else
    match findOrder s.orders orderId with
    | none => (.errNotFound, s)
    | some order =>
      if !(order.items.any (fun m => m.supplierId == u.id)) then (.errForbidden, s)
      else
        (.ok (appliedStatusUpdate order req now),
         { s with orders := (replaceOrder s.orders orderId
             (appliedStatusUpdate order req now)) })

/-- The requester is the order's vendor. -/
def isOrderVendor (u : UserCtx) (o : Order) : Bool :=
  u.role == Role.vendor && o.vendorId == u.id

/-- The requester is a supplier with a line item in the order. -/
def isOrderSupplier (u : UserCtx) (o : Order) : Bool :=
  u.role == Role.supplier && o.items.any (fun m => m.supplierId == u.id)

inductive CancelOutcome where
  | ok (order : Order)
  | errNotFound
  | errForbidden
  | errCannotCancel
  deriving DecidableEq, Inhabited

def cancelOk : CancelOutcome → Bool
  | .ok _ => true
  | _ => false

/-- The order carried by a successful cancellation. -/
def cancelOrderOf : CancelOutcome → Order
  | .ok o => o
  | _ => default

/-- cancelOrder from orderController.js: load the order, authorize the
vendor or an involved supplier, reject only when the status is shipped or
delivered, otherwise increment every line's material quantity, set the
status to cancelled and save (running the pre-save totals recompute). -/
def cancelOrder (s : ServerState) (u : UserCtx) (orderId : Nat) :
    CancelOutcome × ServerState :=
  match findOrder s.orders orderId with
  | none => (.errNotFound, s)
  | some order =>
    if !(isOrderVendor u order) && !(isOrderSupplier u order) then (.errForbidden, s)
    else if order.status == .shipped || order.status == .delivered then
      (.errCannotCancel, s)
    else
      (.ok (orderRecalcTotals { order with status := .cancelled }),
       { materials := (order.items.foldl
           (fun ms it => incMaterialQty ms it.materialId it.quantity) s.materials),
         orders := (replaceOrder s.orders orderId
           (orderRecalcTotals { order with status := .cancelled })) })

/-- Total quantity the order holds for one material (sums duplicates). -/
def orderQtyOf (o : Order) (materialId : Nat) : ℤ :=
  ((o.items.filter (fun it => it.materialId == materialId)).map
    (fun it => it.quantity)).sum

theorem findMaterial_map_preserving (f : Material → Material)
    (hf : ∀ m, (f m).id = m.id) (mats : List Material) (tid : Nat) :
    findMaterial (mats.map f) tid = (findMaterial mats tid).map f := by
  induction mats with
  | nil => rfl
  | cons m ms ih =>
    simp only [List.map_cons]
    unfold findMaterial
    cases hpa : m.id == tid with
    | true =>
      have hfa : ((f m).id == tid) = true := by rw [hf]; exact hpa
      simp only [List.find?, hpa, hfa, Option.map_some']
    | false =>
      have hfa : ((f m).id == tid) = false := by rw [hf]; exact hpa
      simp only [List.find?, hpa, hfa]
      exact ih

theorem incMaterialQty_keeps_id (mid : Nat) (q : ℤ) (m : Material) :
    ((fun m => if m.id == mid then { m with quantity := m.quantity + q } else m) m).id
      = m.id := by
  dsimp only
  split <;> rfl

theorem findMaterial_incMaterialQty (mats : List Material) (mid : Nat) (q : ℤ) (tid : Nat) :
    findMaterial (incMaterialQty mats mid q) tid =
      (findMaterial mats tid).map
        (fun m => if m.id == mid then { m with quantity := m.quantity + q } else m) := by
  unfold incMaterialQty
  exact findMaterial_map_preserving _ (incMaterialQty_keeps_id mid q) mats tid

theorem materialQty_inc (mats : List Material) (mid tid : Nat) (q : ℤ)
    (h : (findMaterial mats tid).isSome = true) :
    materialQty (incMaterialQty mats mid q) tid =
      materialQty mats tid + (if tid = mid then q else 0) := by
  unfold materialQty
  rw [findMaterial_incMaterialQty]
  cases hfm : findMaterial mats tid with
  | none => rw [hfm] at h; simp at h
  | some m =>
    have hid : m.id = tid := findMaterial_id hfm
    simp only [Option.map_some']
    by_cases ht : tid = mid
    · have hb : (m.id == mid) = true := by rw [hid, ht]; exact beq_self_eq_true mid
      simp [hb, ht]
    · have hb : (m.id == mid) = false := by
        rw [hid]
        exact beq_eq_false_iff_ne.mpr ht
      simp [hb, ht]

theorem findMaterial_isSome_inc (mats : List Material) (mid : Nat) (q : ℤ) (tid : Nat) :
    (findMaterial (incMaterialQty mats mid q) tid).isSome =
      (findMaterial mats tid).isSome := by
  rw [findMaterial_incMaterialQty]
  cases findMaterial mats tid <;> rfl

theorem materialQty_foldl_inc (items : List OrderItem) (mats : List Material) (tid : Nat)
    (h : (findMaterial mats tid).isSome = true) :
    materialQty
        (items.foldl (fun ms it => incMaterialQty ms it.materialId it.quantity) mats) tid =
      materialQty mats tid +
        ((items.filter (fun it => it.materialId == tid)).map (fun it => it.quantity)).sum := by
  induction items generalizing mats with
  | nil => simp
  | cons it rest ih =>
    simp only [List.foldl_cons]
    rw [ih (incMaterialQty mats it.materialId it.quantity)
      (by rw [findMaterial_isSome_inc]; exact h)]
    rw [materialQty_inc mats it.materialId tid it.quantity h]
    cases hit : it.materialId == tid with
    | true =>
      have : tid = it.materialId := (eq_of_beq hit).symm
      rw [List.filter_cons_of_pos]
      · simp only [List.map_cons, List.sum_cons, if_pos this]
        ring
      · exact hit
    | false =>
      have : ¬ tid = it.materialId := fun he => by
        rw [beq_eq_false_iff_ne] at hit
        exact hit he.symm
      rw [List.filter_cons_of_neg]
      · rw [if_neg this]
        ring
      · simp [hit]

theorem findOrder_id {orders : List Order} {orderId : Nat} {o : Order}
    (h : findOrder orders orderId = some o) : o.id = orderId := by
  unfold findOrder at h
  have hp := List.find?_some h
  simpa using hp

theorem findOrder_replaceOrder (orders : List Order) (orderId : Nat) (updated : Order)
    (hsome : (findOrder orders orderId).isSome = true) (hid : updated.id = orderId) :
    findOrder (replaceOrder orders orderId updated) orderId = some updated := by
  induction orders with
  | nil => simp [findOrder] at hsome
  | cons a rest ih =>
    unfold replaceOrder findOrder
    simp only [List.map_cons]
    cases hpa : a.id == orderId with
    | true =>
      have hub : (updated.id == orderId) = true := by
        rw [hid]; exact beq_self_eq_true orderId
      simp only [hpa, if_true, List.find?, hub]
    | false =>
      have hsome' : (findOrder rest orderId).isSome = true := by
        unfold findOrder at hsome
        simp only [List.find?, hpa] at hsome
        exact hsome
      simp only [hpa, Bool.false_eq_true, if_false, List.find?]
      exact ih hsome'

/-- C10: the supplier status-update operation accepts any target status in
validStatuses regardless of the order's current status — including
transitions out of the terminal states delivered and cancelled — and it
leaves every material quantity unchanged, even when the target status is
cancelled; stock restore happens only through the separate cancel
operation. -/
theorem updateOrderStatus_unrestricted_and_stock_frame
    (s : ServerState) (u : UserCtx) (orderId : Nat) (req : UpdateStatusRequest)
    (now : Nat) (order : Order)
    (hfind : findOrder s.orders orderId = some order)
    (hsup : order.items.any (fun m => m.supplierId == u.id) = true)
    (hvalid : req.status ∈ validStatuses) :
    (updateOrderStatus s u orderId req now).1 =
      UpdateStatusOutcome.ok (appliedStatusUpdate order req now) ∧
    (appliedStatusUpdate order req now).status = req.status ∧
    (updateOrderStatus s u orderId req now).2.materials = s.materials := by
  have hc : validStatuses.contains req.status = true := by
    exact List.elem_eq_true_of_mem hvalid
  simp only [updateOrderStatus, hc, Bool.not_true, Bool.false_eq_true, if_false,
    hfind, hsup]
  exact ⟨trivial, rfl, trivial⟩

/-- The order line shared by the concrete transition states: 20 kg of
material 1 supplied by supplier 7. -/
def oItem : OrderItem :=
  { materialId := 1, materialName := "Fresh Tomatoes", category := "Vegetables",
    quantity := 20, unit := "kg", price := 40, totalPrice := 800,
    supplierId := 7, supplierName := "Test Supplier" }

/-- A delivered order for 20 of material 1. -/
def c10order : Order :=
  { id := 5, orderNumber := "IBP250307000000", vendorId := 9,
    vendorName := "Test Vendor", items := [oItem], totalItems := 20,
    subtotal := 800, deliveryFee := 50, discount := 0, taxes := 0,
    totalAmount := 850, status := .delivered, tracking := [], notes := "",
    estimatedDelivery := none, trackingNumber := none, actualDelivery := none,
    cancelledAt := none, cancelledBy := none }

def c10state : ServerState := { materials := wMats, orders := [c10order] }

def oSupplier : UserCtx := { id := 7, role := .supplier }

def c10req : UpdateStatusRequest :=
  { status := .cancelled, estimatedDelivery := none, trackingNumber := none,
    notes := none }

/-- Witness for C10: a delivered order moved to cancelled by its supplier,
with the material catalog untouched. -/
theorem updateOrderStatus_unrestricted_and_stock_frame_witness :
    findOrder c10state.orders 5 = some c10order ∧
    c10order.status = OrderStatus.delivered ∧
    OrderStatus.cancelled ∈ validStatuses ∧
    (updateOrderStatus c10state oSupplier 5 c10req 999).2.materials =
      c10state.materials :=
  ⟨rfl, rfl, by decide,
   (updateOrderStatus_unrestricted_and_stock_frame c10state oSupplier 5 c10req 999
     c10order rfl (by decide) (by decide)).2.2⟩

/-- C2 (amended): with the requester authorized, cancelling an order whose
status is shipped or delivered is rejected and changes nothing; cancelling
an order in any other status — pending, confirmed or processing, but also
an already cancelled one — succeeds, stores the order with status
cancelled, and increments each material's quantity by the total quantity
the order holds for it. Because cancelled is not guarded, each repeated
cancellation restores the stock again. -/
theorem cancelOrder_guard_and_restore (s : ServerState) (u : UserCtx) (orderId : Nat)
    (order : Order)
    (hfind : findOrder s.orders orderId = some order)
    (hauth : isOrderVendor u order = true ∨ isOrderSupplier u order = true) :
    ((order.status = OrderStatus.shipped ∨ order.status = OrderStatus.delivered) →
      cancelOrder s u orderId = (CancelOutcome.errCannotCancel, s)) ∧
    (order.status ≠ OrderStatus.shipped → order.status ≠ OrderStatus.delivered →
      (cancelOrder s u orderId).1 =
        CancelOutcome.ok (orderRecalcTotals { order with status := .cancelled }) ∧
      (orderRecalcTotals { order with status := .cancelled }).status =
        OrderStatus.cancelled ∧
      findOrder (cancelOrder s u orderId).2.orders orderId =
        some (orderRecalcTotals { order with status := .cancelled }) ∧
      ∀ mid, (findMaterial s.materials mid).isSome = true →
        materialQty (cancelOrder s u orderId).2.materials mid =
          materialQty s.materials mid + orderQtyOf order mid) := by
  have hnoauth : (!(isOrderVendor u order) && !(isOrderSupplier u order)) = false := by
    rcases hauth with h | h <;> simp [h]
  constructor
  · intro hsd
    have hguard : (order.status == OrderStatus.shipped ||
        order.status == OrderStatus.delivered) = true := by
      rcases hsd with h | h <;> simp [h]
    simp only [cancelOrder, hfind, hnoauth, Bool.false_eq_true, if_false, hguard,
      if_true]
  · intro hs hd
    have hguard : (order.status == OrderStatus.shipped ||
        order.status == OrderStatus.delivered) = false := by
      simp [hs, hd]
    simp only [cancelOrder, hfind, hnoauth, Bool.false_eq_true, if_false, hguard]
    refine ⟨trivial, rfl, ?_, ?_⟩
    · apply findOrder_replaceOrder
      · rw [hfind]; rfl
      · show order.id = orderId
        exact findOrder_id hfind
    · intro mid hmid
      exact materialQty_foldl_inc order.items s.materials mid hmid

/-- A pending order for 20 of material 1, in a state where material 1 has
80 left in stock (100 minus the 20 this order decremented). -/
def c2order : Order :=
  { id := 5, orderNumber := "IBP250307000000", vendorId := 9,
    vendorName := "Test Vendor", items := [oItem], totalItems := 20,
    subtotal := 800, deliveryFee := 50, discount := 0, taxes := 0,
    totalAmount := 850, status := .pending, tracking := [], notes := "",
    estimatedDelivery := none, trackingNumber := none, actualDelivery := none,
    cancelledAt := none, cancelledBy := none }

def c2mats : List Material :=
  [{ id := 1, name := "Fresh Tomatoes", category := "Vegetables", price := 40,
     quantity := 80, unit := "kg", supplierId := 7, supplierName := "Test Supplier" }]

def c2state : ServerState := { materials := c2mats, orders := [c2order] }

def c2vendor : UserCtx := { id := 9, role := .vendor }

/-- Witness for C2 as amended: the vendor cancels the pending order and
material 1 gains back the ordered 20. -/
theorem cancelOrder_guard_and_restore_witness :
    findOrder c2state.orders 5 = some c2order ∧
    isOrderVendor c2vendor c2order = true ∧
    (findMaterial c2state.materials 1).isSome = true ∧
    materialQty (cancelOrder c2state c2vendor 5).2.materials 1 =
      materialQty c2state.materials 1 + orderQtyOf c2order 1 :=
  ⟨rfl, by decide, by decide,
   ((cancelOrder_guard_and_restore c2state c2vendor 5 c2order rfl
      (Or.inl (by decide))).2 (by decide) (by decide)).2.2.2 1 (by decide)⟩

/-- C2 counterexample to restoring at most once per order: material 1
starts at 80; the first cancellation of the pending order lifts it to 100,
and a second cancellation of the now cancelled order is accepted (the guard
only checks shipped/delivered) and lifts it to 120 — the same line's stock
is restored twice. -/
theorem cancelOrder_double_restore :
    materialQty (cancelOrder c2state c2vendor 5).2.materials 1 = 100 ∧
    cancelOk (cancelOrder (cancelOrder c2state c2vendor 5).2 c2vendor 5).1 = true ∧
    materialQty
      (cancelOrder (cancelOrder c2state c2vendor 5).2 c2vendor 5).2.materials 1 = 120 :=
  ⟨by decide, by decide, by decide⟩

/-- C3 (amended): a successful transition through updateOrderStatus or
cancelOrder leaves the order's tracking history exactly as it was — no
entry is appended and, in particular, existing entries are never modified
or removed — and a successful cancellation leaves cancelledAt and
cancelledBy untouched. The append-and-stamp behaviour of the spec exists
only in the Order model's updateStatus instance method, which neither
route handler invokes. -/
theorem orderTransitions_tracking_frame (s : ServerState) (u : UserCtx) (orderId : Nat)
    (req : UpdateStatusRequest) (now : Nat) (order : Order)
    (hfind : findOrder s.orders orderId = some order) :
    (∀ o', (updateOrderStatus s u orderId req now).1 = UpdateStatusOutcome.ok o' →
      o'.tracking = order.tracking) ∧
    (∀ o', (cancelOrder s u orderId).1 = CancelOutcome.ok o' →
      o'.tracking = order.tracking ∧ o'.cancelledAt = order.cancelledAt ∧
      o'.cancelledBy = order.cancelledBy) := by
  constructor
  · intro o' h'
    cases hc : validStatuses.contains req.status with
    | false =>
      simp only [updateOrderStatus, hc, Bool.not_false, if_true] at h'
      exact UpdateStatusOutcome.noConfusion h'
    | true =>
      cases hsup : order.items.any (fun m => m.supplierId == u.id) with
      | false =>
        simp only [updateOrderStatus, hc, Bool.not_true, Bool.not_false,
          Bool.false_eq_true, if_false, if_true, hfind, hsup] at h'
        exact UpdateStatusOutcome.noConfusion h'
      | true =>
        simp only [updateOrderStatus, hc, Bool.not_true, Bool.not_false,
          Bool.false_eq_true, if_false, if_true, hfind, hsup,
          UpdateStatusOutcome.ok.injEq] at h'
        rw [← h']
        rfl
  · intro o' h'
    cases hna : (!(isOrderVendor u order) && !(isOrderSupplier u order)) with
    | true =>
      simp only [cancelOrder, hfind, hna, if_true] at h'
      exact CancelOutcome.noConfusion h'
    | false =>
      cases hguard : (order.status == OrderStatus.shipped ||
          order.status == OrderStatus.delivered) with
      | true =>
        simp only [cancelOrder, hfind, hna, Bool.false_eq_true, if_false, if_true,
          hguard] at h'
        exact CancelOutcome.noConfusion h'
      | false =>
        simp only [cancelOrder, hfind, hna, Bool.false_eq_true, if_false, hguard,
          CancelOutcome.ok.injEq] at h'
        rw [← h']
        exact ⟨rfl, rfl, rfl⟩

def c2supplier : UserCtx := { id := 7, role := .supplier }

def c3req : UpdateStatusRequest :=
  { status := .confirmed, estimatedDelivery := none, trackingNumber := none,
    notes := none }

/-- C3 counterexample: on the concrete pending order, a successful supplier
status update to confirmed appends nothing to the tracking history (it
stays empty instead of gaining one entry), and a successful vendor
cancellation reaches status cancelled while stamping neither cancelledAt
nor cancelledBy. -/
theorem orderTransitions_no_append_no_stamp :
    usOk (updateOrderStatus c2state c2supplier 5 c3req 999).1 = true ∧
    (usOrderOf (updateOrderStatus c2state c2supplier 5 c3req 999).1).status =
      OrderStatus.confirmed ∧
    (usOrderOf (updateOrderStatus c2state c2supplier 5 c3req 999).1).tracking = [] ∧
    cancelOk (cancelOrder c2state c2vendor 5).1 = true ∧
    (cancelOrderOf (cancelOrder c2state c2vendor 5).1).status =
      OrderStatus.cancelled ∧
    (cancelOrderOf (cancelOrder c2state c2vendor 5).1).cancelledAt = none ∧
    (cancelOrderOf (cancelOrder c2state c2vendor 5).1).cancelledBy = none :=
  ⟨by decide, by decide, by decide, by decide, by decide, by decide, by decide⟩

/-- Witness for C3 as amended: the cancellation of the concrete pending
order keeps its (empty) tracking history unchanged. -/
theorem orderTransitions_tracking_frame_witness :
    findOrder c2state.orders 5 = some c2order ∧
    (cancelOrderOf (cancelOrder c2state c2vendor 5).1).tracking = c2order.tracking :=
  ⟨rfl,
   ((orderTransitions_tracking_frame c2state c2vendor 5 c3req 999 c2order rfl).2
     (cancelOrderOf (cancelOrder c2state c2vendor 5).1) rfl).1⟩

/-! ## Order number generation (C4) -/

def oNow2 : DateNow := { year := 2025, month := 3, day := 7, epochMs := 1741301000000 }

/-- C4 counterexample: on 2025-03-07 with Date.now() = 1741300000000 and an
empty order collection, the created order's number is IBP250307000000 — the
suffix is the last six digits of the timestamp, 15 characters in all — while
the scan-based daily-sequence generator of the schema hook would produce
the 13-character IBP2503070001; moreover a second creation on the same day
at Date.now() = 1741301000000 produces the very same number, so the scheme
does not guarantee same-day uniqueness. -/
theorem createOrder_orderNumber_not_daily_sequence :
    (orderOfOutcome (createOrder oState 9 "Test Vendor" oReqOk oNow 1).1).orderNumber =
      "IBP250307000000" ∧
    preSaveOrderNumber [] oNow = "IBP2503070001" ∧
    "IBP250307000000" ≠ "IBP2503070001" ∧
    "IBP250307000000".length = 15 ∧
    "IBP2503070001".length = 13 ∧
    oNow.epochMs ≠ oNow2.epochMs ∧
    controllerOrderNumber oNow = controllerOrderNumber oNow2 :=
  ⟨by decide, by decide, by decide, by decide, by decide, by decide, by decide⟩

/-- C4 (amended): every order created through createOrder has an
orderNumber of the form IBP ++ YY ++ MM ++ DD ++ TTTTTT, where TTTTTT is
the last six digits of Date.now() in milliseconds — not the four-digit
scanned daily sequence, which lives only in the schema pre-save hook and is
bypassed because the controller always supplies an orderNumber. -/
theorem createOrder_orderNumber_format
    (s : ServerState) (vendorId : Nat) (vendorName : String) (req : CreateOrderRequest)
    (now : DateNow) (newOrderId : Nat) (order : Order)
    (h : (createOrder s vendorId vendorName req now newOrderId).1 =
      CreateOrderOutcome.created order) :
    order.orderNumber =
      "IBP" ++ lastN 2 (toString now.year) ++ pad2 now.month ++ pad2 now.day ++
        lastN 6 (toString now.epochMs) := by
  cases hemp : req.materials.isEmpty with
  | true => simp [createOrder, hemp] at h
  | false =>
    simp only [createOrder, hemp, Bool.false_eq_true, if_false] at h
    cases hval : validateItems s.materials req.materials with
    | error e =>
      cases e with
      | notFound materialId => simp [hval] at h
      | insufficientStock n a => simp [hval] at h
    | ok p =>
      obtain ⟨items, total⟩ := p
      simp only [hval, CreateOrderOutcome.created.injEq] at h
      subst h
      rfl

/-- Witness for C4 as amended, at the concrete creation of 2025-03-07. -/
theorem createOrder_orderNumber_format_witness :
    (createOrder oState 9 "Test Vendor" oReqOk oNow 1).1 =
      CreateOrderOutcome.created
        (orderOfOutcome (createOrder oState 9 "Test Vendor" oReqOk oNow 1).1) ∧
    (orderOfOutcome (createOrder oState 9 "Test Vendor" oReqOk oNow 1).1).orderNumber =
      "IBP" ++ lastN 2 (toString oNow.year) ++ pad2 oNow.month ++ pad2 oNow.day ++
        lastN 6 (toString oNow.epochMs) :=
  ⟨rfl,
   createOrder_orderNumber_format oState 9 "Test Vendor" oReqOk oNow 1
     (orderOfOutcome (createOrder oState 9 "Test Vendor" oReqOk oNow 1).1) rfl⟩

/-! ## Geo-distance utility and nearby-supplier discovery -/

open Classical in
/-- JS Math.atan2(y, x), modelled over the reals by quadrant (the signed
zero distinctions of IEEE have no rational meaning here). -/
noncomputable def atan2 (y x : ℝ) : ℝ :=
  if 0 < x then Real.arctan (y / x)
  else if x < 0 ∧ 0 ≤ y then Real.arctan (y / x) + Real.pi
  else if x < 0 then Real.arctan (y / x) - Real.pi
  else if 0 < y then Real.pi / 2
  else if y < 0 then -(Real.pi / 2)
  else 0

/-- The intermediate value a of the Haversine computation shared by
calculateDistanceBetweenPoints (server), the inlined copy in the suppliers
route, and the client's calculateDistance. -/
noncomputable def haversineA (lat1 lng1 lat2 lng2 : ℝ) : ℝ :=
  Real.sin ((lat2 - lat1) * Real.pi / 180 / 2) *
    Real.sin ((lat2 - lat1) * Real.pi / 180 / 2) +
  Real.cos (lat1 * Real.pi / 180) * Real.cos (lat2 * Real.pi / 180) *
    Real.sin ((lng2 - lng1) * Real.pi / 180 / 2) *
    Real.sin ((lng2 - lng1) * Real.pi / 180 / 2)

/-- Haversine great-circle distance in kilometres with Earth radius
6371 km: R * c with c = 2 * atan2(sqrt a, sqrt(1 - a)). -/
noncomputable def calculateDistanceBetweenPoints (lat1 lng1 lat2 lng2 : ℝ) : ℝ :=
  6371 * (2 * atan2 (Real.sqrt (haversineA lat1 lng1 lat2 lng2))
    (Real.sqrt (1 - haversineA lat1 lng1 lat2 lng2)))

theorem haversineA_symm (lat1 lng1 lat2 lng2 : ℝ) :
    haversineA lat1 lng1 lat2 lng2 = haversineA lat2 lng2 lat1 lng1 := by
  unfold haversineA
  have h1 : (lat1 - lat2) * Real.pi / 180 / 2 =
      -((lat2 - lat1) * Real.pi / 180 / 2) := by ring
  have h2 : (lng1 - lng2) * Real.pi / 180 / 2 =
      -((lng2 - lng1) * Real.pi / 180 / 2) := by ring
  rw [h1, h2, Real.sin_neg, Real.sin_neg]
  ring

/-- C8: the Haversine distance is symmetric in its two coordinate pairs,
and the distance from any point to itself is zero. -/
theorem calculateDistance_symm_and_self_zero :
    (∀ lat1 lng1 lat2 lng2 : ℝ,
      calculateDistanceBetweenPoints lat1 lng1 lat2 lng2 =
        calculateDistanceBetweenPoints lat2 lng2 lat1 lng1) ∧
    (∀ lat lng : ℝ, calculateDistanceBetweenPoints lat lng lat lng = 0) := by
  constructor
  · intro lat1 lng1 lat2 lng2
    unfold calculateDistanceBetweenPoints
    rw [haversineA_symm]
  · intro lat lng
    have ha : haversineA lat lng lat lng = 0 := by
      unfold haversineA
      simp
    unfold calculateDistanceBetweenPoints
    rw [ha, Real.sqrt_zero, sub_zero, Real.sqrt_one]
    have hz : atan2 0 1 = 0 := by
      unfold atan2
      rw [if_pos (by norm_num : (0:ℝ) < 1)]
      simp [Real.arctan_zero]
    rw [hz]
    ring

/-- A supplier user document as the nearby query sees it: the role and
isActive flags the query filters on, plus the stored coordinates. -/
structure SupplierRec where
  userId : Nat
  isSupplier : Bool
  isActive : Bool
  latitude : ℝ
  longitude : ℝ

/-- A supplier annotated with its computed distance field. -/
structure SupplierWithDistance where
  supplier : SupplierRec
  distance : ℝ

/-- The ascending-distance comparison of the sort callback
(a, b) => a.distance - b.distance. -/
def distLE (a b : SupplierWithDistance) : Prop := a.distance ≤ b.distance

noncomputable instance : DecidableRel distLE :=
  fun a b => Real.decidableLE a.distance b.distance

instance : IsTotal SupplierWithDistance distLE :=
  ⟨fun a b => le_total a.distance b.distance⟩

instance : IsTrans SupplierWithDistance distLE :=
  ⟨fun _ _ _ hab hbc => le_trans hab hbc⟩

/-- Math.round(d * 100) / 100 over the reals. -/
noncomputable def round2R (x : ℝ) : ℝ := ((⌊x * 100 + 1/2⌋ : ℤ) : ℝ) / 100

/-- Query string of GET /suppliers/nearby; every field may be absent. -/
structure NearbyQuery where
  latitude : Option ℝ
  longitude : Option ℝ
  radius : Option ℝ

/-- The searchCriteria object echoed in the response. -/
structure SearchCriteria where
  latitude : ℝ
  longitude : ℝ
  radius : ℝ

inductive NearbyOutcome where
  | ok (suppliers : List SupplierWithDistance) (criteria : SearchCriteria)
  | errMissingCoords
  | errInvalidCoords

open Classical in
/-- getNearbySuppliers from supplierController.js: after presence and range
validation of the coordinates, the radius (default 25 km) is converted to
radians and the collection is geo-queried with centerSphere — modelled, per
that query's documented semantics, as keeping the suppliers whose central
angle to the query point (distance / 6371) is at most the radius in
radians. Each hit is annotated with the inlined Haversine distance rounded
to two decimals, and the list is sorted ascending by that distance. -/
noncomputable def getNearbySuppliers (users : List SupplierRec) (q : NearbyQuery) :
    NearbyOutcome :=
  match q.latitude, q.longitude with
  | some lat, some lng =>
    if lat < -90 ∨ lat > 90 ∨ lng < -180 ∨ lng > 180 then .errInvalidCoords
    else
      .ok
        (List.insertionSort distLE
          ((users.filter (fun u => u.isSupplier && u.isActive &&
              decide (calculateDistanceBetweenPoints lat lng u.latitude u.longitude / 6371 ≤
                (q.radius.getD 25) / 6371))).map
            (fun u =>
              { supplier := u
                distance := round2R
                  (calculateDistanceBetweenPoints lat lng u.latitude u.longitude) })))
        { latitude := lat, longitude := lng, radius := q.radius.getD 25 }
  | _, _ => .errMissingCoords

/-- C9: a successful nearby-suppliers query (radius defaulting to 25 km)
returns only suppliers whose computed distance to the query point is within
the requested radius, annotates each with that distance rounded to two
decimals, and sorts the list ascending by the annotated distance. -/
theorem getNearbySuppliers_spec (users : List SupplierRec) (q : NearbyQuery)
    (res : List SupplierWithDistance) (crit : SearchCriteria)
    (h : getNearbySuppliers users q = NearbyOutcome.ok res crit) :
    crit.radius = q.radius.getD 25 ∧
    (∀ a ∈ res,
      a.distance = round2R (calculateDistanceBetweenPoints crit.latitude crit.longitude
        a.supplier.latitude a.supplier.longitude) ∧
      calculateDistanceBetweenPoints crit.latitude crit.longitude
        a.supplier.latitude a.supplier.longitude ≤ crit.radius) ∧
    List.Sorted distLE res := by
  cases hlat : q.latitude with
  | none => simp [getNearbySuppliers, hlat] at h
  | some lat =>
    cases hlng : q.longitude with
    | none => simp [getNearbySuppliers, hlat, hlng] at h
    | some lng =>
      simp only [getNearbySuppliers, hlat, hlng] at h
      by_cases hv : lat < -90 ∨ lat > 90 ∨ lng < -180 ∨ lng > 180
      · rw [if_pos hv] at h
        exact NearbyOutcome.noConfusion h
      · rw [if_neg hv] at h
        simp only [NearbyOutcome.ok.injEq] at h
        obtain ⟨hres, hcrit⟩ := h
        subst hres
        subst hcrit
        refine ⟨rfl, ?_, List.sorted_insertionSort distLE _⟩
        intro a ha
        rw [List.mem_insertionSort] at ha
        obtain ⟨u, hu, rfl⟩ := List.mem_map.mp ha
        refine ⟨rfl, ?_⟩
        have hfu := (List.mem_filter.mp hu).2
        simp only [Bool.and_eq_true, decide_eq_true_eq] at hfu
        have hd := hfu.2
        have h6371 : (0:ℝ) < 6371 := by norm_num
        exact (div_le_div_iff_of_pos_right h6371).mp hd

def c9query : NearbyQuery := { latitude := some 19, longitude := some 72, radius := none }

def c9crit : SearchCriteria := { latitude := 19, longitude := 72, radius := 25 }

/-- Witness for C9 at a concrete query over an empty supplier collection. -/
theorem getNearbySuppliers_spec_witness :
    getNearbySuppliers [] c9query = NearbyOutcome.ok [] c9crit ∧
    List.Sorted distLE ([] : List SupplierWithDistance) := by
  have h : getNearbySuppliers [] c9query = NearbyOutcome.ok [] c9crit := by
    simp only [getNearbySuppliers, c9query]
    rw [if_neg (by norm_num)]
    rfl
  exact ⟨h, (getNearbySuppliers_spec [] c9query [] c9crit h).2.2⟩

end IndianBazaar
